import Mathlib

/-!
Shallow embedding of the gacha-ping repository's core logic:
the group registry (src/db/index.ts over the Drizzle/SQLite schema in
src/db/schema.ts), the command handlers (src/handlers.ts) and the
in-memory rate limiter (src/timeouts.ts).

Conventions:
* JavaScript `Date.now()` timestamps are `Nat` milliseconds and are passed
  explicitly (`now`) to every operation that reads the clock.
* The SQLite database is a `Db` value: the two tables as row lists in
  insertion order plus the id counter that models the auto-assigned
  `integer primary key` of `groups` (fresh rows receive `nextId`).
* `try/catch` around storage calls: the storage layer itself never fails in
  the pure model; operations whose catch-path value a claim depends on get a
  `...Try` variant taking an explicit `fail` flag that selects the value the
  source's `catch` branch returns.
-/

namespace GachaPing

/-! ## Rate limiter (src/timeouts.ts) -/

/-- Timeout durations in seconds.  In the source these are the module
constants `CREATE_TIMEOUT` (default 300) and `PING_TIMEOUT` (default 60),
read from the environment at start-up; the model passes them explicitly. -/
structure TimeoutConfig where
  createTimeout : Nat
  pingTimeout : Nat
deriving DecidableEq, Repr

/-- The defaults used when the environment variables are unset. -/
def defaultTimeoutConfig : TimeoutConfig := ⟨300, 60⟩

/-- The JS `Map<string, number>` `userTimeouts`, as an association list.
`Map.set` replaces the binding for an existing key. -/
abbrev TimeoutMap := List (String × Nat)

/-- Models `Map.get`. -/
def mapGet (m : TimeoutMap) (k : String) : Option Nat :=
  (m.find? (fun e => e.1 = k)).map (fun e => e.2)

/-- Models `Map.set`: replace the binding for `k` if present, else add it. -/
def mapSet (m : TimeoutMap) (k : String) (v : Nat) : TimeoutMap :=
  (k, v) :: m.filter (fun e => ¬ e.1 = k)

/-- Models `Map.delete`. -/
def mapDelete (m : TimeoutMap) (k : String) : TimeoutMap :=
  m.filter (fun e => ¬ e.1 = k)

/-- The map key `` `${userId}-${command}` ``. -/
def timeoutKey (userId command : String) : String :=
  userId ++ "-" ++ command

/-- Return shape of `isOnTimeout`. -/
structure TimeoutResult where
  onTimeout : Bool
  remainingSeconds : Int
deriving DecidableEq, Repr

/-- Function `isOnTimeout` from src/timeouts.ts.  Returns the result object together
with the possibly-updated map (the source mutates the module-level map when
it lazily evicts an expired entry).

Source notes reflected here:
* `if (!lastUsed)` is a JS falsiness test, so a stored timestamp of `0`
  behaves like an absent entry (and is not evicted);
* `Math.ceil(timeoutSeconds - (now - lastUsed) / 1000)` is real-number
  arithmetic, modelled exactly over `ℚ` with `Int.ceil`. -/
def isOnTimeout (cfg : TimeoutConfig) (m : TimeoutMap) (now : Nat)
    (userId command : String) : TimeoutResult × TimeoutMap :=
  let key := timeoutKey userId command
  match mapGet m key with
  | none => (⟨false, 0⟩, m)
  | some lastUsed =>
    if lastUsed = 0 then
      (⟨false, 0⟩, m)
    else
      let timeoutSeconds := if command = "create" then cfg.createTimeout else cfg.pingTimeout
      let remainingSeconds : Int :=
        ⌈(timeoutSeconds : ℚ) - ((now : ℚ) - (lastUsed : ℚ)) / 1000⌉
      if remainingSeconds ≤ 0 then
        (⟨false, 0⟩, mapDelete m key)
      else
        (⟨true, remainingSeconds⟩, m)

/-- Function `setTimeout` from src/timeouts.ts: unconditionally record `now` for the
key. -/
def setTimeout (m : TimeoutMap) (now : Nat) (userId command : String) : TimeoutMap :=
  mapSet m (timeoutKey userId command) now

/-! ## Name validation (src/db/index.ts, `validateGroupName`) -/

/-- The set of code points matched by `\s` in a JavaScript regular
expression (WhiteSpace ∪ LineTerminator): tab, LF, VT, FF, CR, space,
NBSP, Ogham space mark, the U+2000–U+200A range, LS, PS, NNBSP, MMSP,
ideographic space and the BOM. -/
def jsWhitespace (c : Char) : Bool :=
  c.toNat = 0x9 || c.toNat = 0xa || c.toNat = 0xb || c.toNat = 0xc ||
  c.toNat = 0xd || c.toNat = 0x20 || c.toNat = 0xa0 || c.toNat = 0x1680 ||
  (0x2000 ≤ c.toNat && c.toNat ≤ 0x200a) || c.toNat = 0x2028 ||
  c.toNat = 0x2029 || c.toNat = 0x202f || c.toNat = 0x205f ||
  c.toNat = 0x3000 || c.toNat = 0xfeff

/-- A character matched by the class `[a-zA-Z0-9\s\-_]` of the source's
`validNameRegex`. -/
def validNameChar (c : Char) : Bool :=
  (0x61 ≤ c.toNat && c.toNat ≤ 0x7a) ||   -- a-z
  (0x41 ≤ c.toNat && c.toNat ≤ 0x5a) ||   -- A-Z
  (0x30 ≤ c.toNat && c.toNat ≤ 0x39) ||   -- 0-9
  jsWhitespace c ||                        -- \s
  c.toNat = 0x2d ||                        -- hyphen
  c.toNat = 0x5f                           -- underscore

/-- Models `/^[a-zA-Z0-9\s\-_]+$/.test(name)`: the string is non-empty and every
character is in the class. -/
def validNameRegexTest (name : String) : Bool :=
  !name.data.isEmpty && name.data.all validNameChar

/-- Return shape of `validateGroupName` (`{ valid: boolean; reason?: string }`). -/
structure NameCheck where
  valid : Bool
  reason : Option String
deriving DecidableEq, Repr

/-- Function `validateGroupName` from src/db/index.ts. -/
def validateGroupName (name : String) : NameCheck :=
  if name.length < 2 || name.length > 32 then
    ⟨false, some "Group name must be between 2 and 32 characters long"⟩
  else if !validNameRegexTest name then
    ⟨false, some "Group name can only contain letters, numbers, spaces, hyphens, and underscores"⟩
  else
    ⟨true, none⟩

/-- JavaScript `String.prototype.trim`, which strips the same
WhiteSpace ∪ LineTerminator set as `\s`, from both ends. -/
def jsTrim (name : String) : String :=
  ⟨((name.data.dropWhile jsWhitespace).reverse.dropWhile jsWhitespace).reverse⟩

/-! ## Database state (src/db/schema.ts) -/

/-- A row of `groupsTable`.  The schema declares `id` as the integer primary
key, all other columns `notNull`; it declares no unique constraint on
`(name, guild_id)` (the comment on `name` states uniqueness per guild as
intent only). -/
structure Group where
  id : Nat
  name : String
  guildId : String
  creatorId : String
  lastUsed : Nat
deriving DecidableEq, Repr

/-- A row of `groupMembersTable`.  The schema declares no primary key and no
unique constraint — only a foreign key `group_id → groups.id` — so the table
admits duplicate `(groupId, userId)` rows. -/
structure MemberRow where
  groupId : Nat
  userId : String
deriving DecidableEq, Repr

/-- The SQLite database: both tables in row-insertion order, plus the next
value of the auto-assigned `groups.id` primary key. -/
structure Db where
  groups : List Group
  members : List MemberRow
  nextId : Nat
deriving DecidableEq, Repr

/-- The empty database, with ids starting at 1 as SQLite does. -/
def emptyDb : Db := ⟨[], [], 1⟩

/-! ## Group registry (src/db/index.ts) -/

/-- Function `createGroup`: trim, validate, then insert the group row (the fresh
primary key is `nextId`; no unique constraint exists to make the insert
fail) and the creator's membership row.  Returns the inserted row, or
`none` when validation fails. -/
def createGroup (s : Db) (now : Nat) (name guildId creatorId : String) :
    Option Group × Db :=
  let trimmedName := jsTrim name
  if (validateGroupName trimmedName).valid = false then
    (none, s)
  else
    let group : Group := ⟨s.nextId, trimmedName, guildId, creatorId, now⟩
    (some group,
      { groups := s.groups ++ [group]
        members := s.members ++ [⟨group.id, creatorId⟩]
        nextId := s.nextId + 1 })

/-- Function `getGroupByName`: `findFirst` on `name = ? AND guild_id = ?`, i.e. the
first matching row in table order. -/
def getGroupByName (s : Db) (name guildId : String) : Option Group :=
  s.groups.find? (fun g => g.name = name && g.guildId = guildId)

/-- The `ORDER BY last_used` comparison used by the two listing queries. -/
def lastUsedLE (a b : Group) : Prop := a.lastUsed ≤ b.lastUsed

instance : DecidableRel lastUsedLE := fun a b => Nat.decLe a.lastUsed b.lastUsed

instance : IsTotal Group lastUsedLE := ⟨fun a b => Nat.le_total a.lastUsed b.lastUsed⟩

instance : IsTrans Group lastUsedLE := ⟨fun _ _ _ h h' => Nat.le_trans h h'⟩

/-- Function `getGuildGroups`: `SELECT * FROM groups WHERE guild_id = ? ORDER BY
last_used`. -/
def getGuildGroups (s : Db) (guildId : String) : List Group :=
  List.insertionSort lastUsedLE (s.groups.filter (fun g => g.guildId = guildId))

/-- Function `getUserGuildGroups`: inner join of `groups` with `group_members` on
`groups.id = group_members.group_id`, filtered by `guild_id` and `user_id`,
ordered by `last_used`.  The join yields one output row per matching
membership row (so duplicate membership rows duplicate the group). -/
def getUserGuildGroups (s : Db) (guildId userId : String) : List Group :=
  let joined := s.groups.flatMap (fun g =>
    (s.members.filter (fun mr =>
      mr.groupId = g.id && g.guildId = guildId && mr.userId = userId)).map
      (fun _ => g))
  List.insertionSort lastUsedLE joined

/-- Function `updateGroupLastUsed`: set `last_used = Date.now()` on the matching row;
returns `true` (the source returns `false` only from its catch branch). -/
def updateGroupLastUsed (s : Db) (now : Nat) (groupId : Nat) : Bool × Db :=
  (true,
    { s with groups := s.groups.map (fun g =>
        if g.id = groupId then { g with lastUsed := now } else g) })

/-- Function `deleteGroup`: delete the membership rows of the group first (foreign
key), then the group row, and return `true`.  SQL `DELETE` of zero rows
succeeds, so the result is `true` whether or not the group exists. -/
def deleteGroup (s : Db) (groupId : Nat) : Bool × Db :=
  (true,
    { s with
        members := s.members.filter (fun mr => ¬ mr.groupId = groupId)
        groups := s.groups.filter (fun g => ¬ g.id = groupId) })

/-- Function `getGroupMembers`: the `user_id` column of the group's membership rows. -/
def getGroupMembers (s : Db) (groupId : Nat) : List String :=
  (s.members.filter (fun mr => mr.groupId = groupId)).map (fun mr => mr.userId)

/-- Function `addMemberToGroup`: `INSERT ... ON CONFLICT DO NOTHING`.  The schema
declares no unique constraint on `group_members`, so the conflict clause
never suppresses anything and the insert always appends a row; the function
returns `true`. -/
def addMemberToGroup (s : Db) (groupId : Nat) (userId : String) : Bool × Db :=
  (true, { s with members := s.members ++ [⟨groupId, userId⟩] })

/-- Function `isMemberInGroup`: `SELECT ... WHERE group_id = ? AND user_id = ? LIMIT 1`
is non-empty. -/
def isMemberInGroup (s : Db) (groupId : Nat) (userId : String) : Bool :=
  s.members.any (fun mr => mr.groupId = groupId && mr.userId = userId)

/-- Function `removeMemberFromGroup`: delete every row matching
`group_id = ? AND user_id = ?`; returns `true`. -/
def removeMemberFromGroup (s : Db) (groupId : Nat) (userId : String) : Bool × Db :=
  (true,
    { s with members := s.members.filter (fun mr =>
        ¬ (mr.groupId = groupId ∧ mr.userId = userId)) })

/-! ### Catch-path variants

The source wraps every query in `try/catch`.  For the operations whose
catch value a claim inspects, a variant takes a `fail` flag: `true` selects
the value the `catch` branch returns. -/

/-- Variant of `getGuildGroups` with its catch branch (`return []`) exposed. -/
def getGuildGroupsTry (fail : Bool) (s : Db) (guildId : String) : List Group :=
  if fail then [] else getGuildGroups s guildId

/-- Variant of `getGroupMembers` with its catch branch (`return []`) exposed. -/
def getGroupMembersTry (fail : Bool) (s : Db) (groupId : Nat) : List String :=
  if fail then [] else getGroupMembers s groupId

/-- Variant of `getUserGuildGroups` with its catch branch (`return []`) exposed. -/
def getUserGuildGroupsTry (fail : Bool) (s : Db) (guildId userId : String) : List Group :=
  if fail then [] else getUserGuildGroups s guildId userId

/-- Variant of `getGroupByName` with its catch branch (`return undefined`) exposed. -/
def getGroupByNameTry (fail : Bool) (s : Db) (name guildId : String) : Option Group :=
  if fail then none else getGroupByName s name guildId

/-! ## Command handlers (src/handlers.ts)

Each handler is modelled as a function from the incoming command's data
(guild, user, option values) and the current state to the reply it sends
plus the updated state.  Replies are tagged by which `interaction.reply`
call the source reaches. -/

/-- The replies `handleCreate` can send. -/
inductive CreateReply where
  | onCooldown (remainingSeconds : Int)
  | alreadyExists
  | createFailed
  | created
deriving DecidableEq, Repr

/-- Handler `handleCreate`: cooldown gate, duplicate-name check via
`getGroupByName` on the raw option value, `createGroup`, then arm the
"create" cooldown. -/
def handleCreate (cfg : TimeoutConfig) (tm : TimeoutMap) (s : Db) (now : Nat)
    (guildId userId groupName : String) : CreateReply × TimeoutMap × Db :=
  let (timeout, tm1) := isOnTimeout cfg tm now userId "create"
  if timeout.onTimeout then
    (.onCooldown timeout.remainingSeconds, tm1, s)
  else
    match getGroupByName s groupName guildId with
    | some _ => (.alreadyExists, tm1, s)
    | none =>
      match createGroup s now groupName guildId userId with
      | (none, s1) => (.createFailed, tm1, s1)
      | (some _, s1) => (.created, setTimeout tm1 now userId "create", s1)

/-- The replies `handleLeave` can send. -/
inductive LeaveReply where
  | groupNotFound
  | notMember
  | leaveFailed
  | leftAndDeleted
  | left
deriving DecidableEq, Repr

/-- Handler `handleLeave`: resolve the group by name, require membership, read the
member list, remove the caller, and delete the group when the member list
read before the removal had exactly one entry. -/
def handleLeave (s : Db) (guildId userId groupName : String) : LeaveReply × Db :=
  match getGroupByName s groupName guildId with
  | none => (.groupNotFound, s)
  | some group =>
    if isMemberInGroup s group.id userId = false then
      (.notMember, s)
    else
      let currentMembers := getGroupMembers s group.id
      let (success, s1) := removeMemberFromGroup s group.id userId
      if success = false then
        (.leaveFailed, s)
      else if currentMembers.length = 1 then
        let (_, s2) := deleteGroup s1 group.id
        (.leftAndDeleted, s2)
      else
        (.left, s1)

/-- The replies `handleJoin` can send. -/
inductive JoinReply where
  | groupNotFound
  | alreadyMember
  | joinFailed
  | joined
deriving DecidableEq, Repr

/-- Handler `handleJoin`: resolve the group by name, reject an existing member,
otherwise `addMemberToGroup`. -/
def handleJoin (s : Db) (guildId userId groupName : String) : JoinReply × Db :=
  match getGroupByName s groupName guildId with
  | none => (.groupNotFound, s)
  | some group =>
    if isMemberInGroup s group.id userId then
      (.alreadyMember, s)
    else
      let (success, s1) := addMemberToGroup s group.id userId
      if success = false then
        (.joinFailed, s)
      else
        (.joined, s1)

/-- The per-action cooldown duration the claims call "configured duration":
the same selection the source makes with
`command === 'create' ? CREATE_TIMEOUT : PING_TIMEOUT`. -/
def actionDuration (cfg : TimeoutConfig) (command : String) : Nat :=
  if command = "create" then cfg.createTimeout else cfg.pingTimeout

/-- The character set named by the specification for group names:
`[A-Za-z0-9 _-]` — letters, digits, the space character, hyphen,
underscore.  Stated from the spec's words for comparison with the
source-derived `validNameChar`. -/
def specNameChar (c : Char) : Bool :=
  (0x41 ≤ c.toNat && c.toNat ≤ 0x5a) ||
  (0x61 ≤ c.toNat && c.toNat ≤ 0x7a) ||
  (0x30 ≤ c.toNat && c.toNat ≤ 0x39) ||
  c.toNat = 0x20 || c.toNat = 0x5f || c.toNat = 0x2d

/-! ## Helper lemmas -/

/-- Finding in a filtered list is finding in the original list when the
search predicate implies the filter predicate. -/
theorem find?_filter_of_imp {α : Type} {p q : α → Bool} (l : List α)
    (h : ∀ e, p e = true → q e = true) :
    (l.filter q).find? p = l.find? p := by
  induction l with
  | nil => rfl
  | cons a t ih =>
    by_cases hq : q a = true
    · by_cases hp : p a = true
      · simp [List.filter_cons, hq, List.find?, hp]
      · simp only [List.filter_cons, hq, if_true, List.find?, hp]
        simpa [List.find?, Bool.not_eq_true] using ih
    · have hp : p a = false := by
        by_contra hc
        exact hq (h a (Bool.of_not_eq_false hc))
      simp only [List.filter_cons, hq, if_false, List.find?, hp]
      simpa [List.find?, hp] using ih

theorem mapGet_mapSet_self (m : TimeoutMap) (k : String) (v : Nat) :
    mapGet (mapSet m k v) k = some v := by
  simp [mapGet, mapSet, List.find?]

theorem mapGet_mapSet_ne (m : TimeoutMap) {k k' : String} (v : Nat)
    (h : k' ≠ k) : mapGet (mapSet m k v) k' = mapGet m k' := by
  unfold mapGet mapSet
  rw [List.find?, show (decide ((k, v).1 = k')) = false by simp [Ne.symm h]]
  rw [find?_filter_of_imp]
  intro e he
  simp only [decide_eq_true_eq] at he ⊢
  rw [he]
  exact h

theorem mapGet_mapDelete_self (m : TimeoutMap) (k : String) :
    mapGet (mapDelete m k) k = none := by
  unfold mapGet mapDelete
  rw [List.find?_eq_none.2]
  · rfl
  · intro e he
    simp only [List.mem_filter, decide_eq_true_eq] at he ⊢
    exact he.2

theorem mapGet_setTimeout_self (m : TimeoutMap) (now : Nat) (u a : String) :
    mapGet (setTimeout m now u a) (timeoutKey u a) = some now :=
  mapGet_mapSet_self m (timeoutKey u a) now

/-- Splitting a list equation at a separator element that occurs in neither
suffix: both parts must agree. -/
theorem append_sep_inj {α : Type} (d : α) (l1 : List α) :
    ∀ (l2 s t : List α), d ∉ s → d ∉ t →
      l1 ++ d :: s = l2 ++ d :: t → l1 = l2 ∧ s = t := by
  induction l1 with
  | nil =>
    intro l2 s t hs ht h
    cases l2 with
    | nil => simpa using h
    | cons x l2t =>
      simp only [List.nil_append, List.cons_append, List.cons.injEq] at h
      exact absurd (h.2 ▸ List.mem_append_right l2t (List.mem_cons_self d t)) hs
  | cons x l1t ih =>
    intro l2 s t hs ht h
    cases l2 with
    | nil =>
      simp only [List.cons_append, List.nil_append, List.cons.injEq] at h
      exact absurd (h.2.symm ▸ List.mem_append_right l1t (List.mem_cons_self d s)) ht
    | cons y l2t =>
      simp only [List.cons_append, List.cons.injEq] at h
      obtain ⟨rfl, h2⟩ := h
      obtain ⟨rfl, rfl⟩ := ih l2t s t hs ht h2
      exact ⟨rfl, rfl⟩

theorem data_timeoutKey (u a : String) :
    (timeoutKey u a).data = u.data ++ Char.ofNat 0x2d :: a.data := by
  show (u ++ "-" ++ a).data = _
  rw [String.data_append, String.data_append, List.append_assoc]
  rfl

/-- On the two action kinds that occur in this program ("create" and
"ping"), the `userId ++ "-" ++ command` key encoding is injective. -/
theorem timeoutKey_inj {u1 u2 a1 a2 : String}
    (h1 : a1 = "create" ∨ a1 = "ping") (h2 : a2 = "create" ∨ a2 = "ping")
    (h : timeoutKey u1 a1 = timeoutKey u2 a2) : u1 = u2 ∧ a1 = a2 := by
  have hd := congrArg String.data h
  rw [data_timeoutKey, data_timeoutKey] at hd
  have hs : Char.ofNat 0x2d ∉ a1.data := by
    rcases h1 with rfl | rfl <;> decide
  have ht : Char.ofNat 0x2d ∉ a2.data := by
    rcases h2 with rfl | rfl <;> decide
  obtain ⟨hu, ha⟩ := append_sep_inj (Char.ofNat 0x2d) u1.data u2.data a1.data a2.data hs ht hd
  exact ⟨String.ext hu, String.ext ha⟩

/-- Closed form of the source's `Math.ceil(D - delta / 1000)` over exact
rational arithmetic: it is `D` minus the number of whole elapsed seconds. -/
theorem ceil_sub_div (D Δ : ℕ) :
    ⌈(D : ℚ) - (Δ : ℚ) / 1000⌉ = (D : ℤ) - ((Δ / 1000 : ℕ) : ℤ) := by
  set q : ℕ := Δ / 1000 with hq
  have h1 : (q : ℚ) * 1000 ≤ (Δ : ℚ) := by
    exact_mod_cast Nat.div_mul_le_self Δ 1000
  have h2 : (Δ : ℚ) < ((q : ℚ) + 1) * 1000 := by
    have h : Δ < (q + 1) * 1000 := by omega
    exact_mod_cast h
  rw [Int.ceil_eq_iff]
  refine ⟨?_, ?_⟩
  · push_cast
    rw [sub_sub, sub_lt_sub_iff_left, div_lt_iff₀ (by norm_num : (0:ℚ) < 1000)]
    linarith
  · push_cast
    rw [sub_le_sub_iff_left, le_div_iff₀ (by norm_num : (0:ℚ) < 1000)]
    linarith

/-- Behaviour of `isOnTimeout` on a present, non-zero, non-future entry:
expired entries (at least the configured duration elapsed) are evicted and
report not-on-timeout; otherwise the entry stays and the remaining seconds
are the ceiling `D - floor(elapsed ms / 1000)`. -/
theorem isOnTimeout_lookup_some (cfg : TimeoutConfig) (m : TimeoutMap)
    (now t : Nat) (u a : String)
    (hm : mapGet m (timeoutKey u a) = some t) (ht : 0 < t) (hle : t ≤ now) :
    isOnTimeout cfg m now u a =
      if 1000 * actionDuration cfg a ≤ now - t then
        (⟨false, 0⟩, mapDelete m (timeoutKey u a))
      else
        (⟨true, (actionDuration cfg a : ℤ) - (((now - t) / 1000 : ℕ) : ℤ)⟩, m) := by
  simp only [isOnTimeout, hm]
  rw [if_neg (Nat.pos_iff_ne_zero.mp ht)]
  have hΔ : ((now : ℚ) - (t : ℚ)) = (((now - t : ℕ)) : ℚ) := by
    rw [Nat.cast_sub hle]
  rw [hΔ, ceil_sub_div]
  have hDur : (if a = "create" then cfg.createTimeout else cfg.pingTimeout)
      = actionDuration cfg a := rfl
  rw [hDur]
  have hcond : ((actionDuration cfg a : ℤ) - (((now - t) / 1000 : ℕ) : ℤ) ≤ 0) ↔
      (1000 * actionDuration cfg a ≤ now - t) := by
    rw [sub_nonpos, Nat.cast_le, Nat.le_div_iff_mul_le (by norm_num : 0 < 1000), mul_comm]
  simp only [hcond]

/-! ## Claim theorems -/

/-- C6: for every `(userId, actionKind)` with configured duration `D`,
`checkCooldown` (`isOnTimeout`) returns not-on-cooldown when no entry exists
for the key; when an entry exists (with a positive timestamp not in the
future) and at least `D` seconds elapsed, it removes the entry and returns
not-on-cooldown; otherwise it returns on-cooldown with `remainingSeconds`
equal to the ceiling of the remaining time, `D - (elapsed ms) / 1000`.
Immediately after `arm` (`setTimeout`) with `D = 300` it reports
`remainingSeconds` in `[299, 300]` (in fact `300`), and after an advance of
301 seconds it reports not-on-cooldown and the entry is gone. -/
theorem claim6_cooldown_check (cfg : TimeoutConfig) (m : TimeoutMap)
    (now t : Nat) (u a : String) :
    (mapGet m (timeoutKey u a) = none →
      isOnTimeout cfg m now u a = (⟨false, 0⟩, m)) ∧
    (mapGet m (timeoutKey u a) = some t → 0 < t → t ≤ now →
      ((1000 * actionDuration cfg a ≤ now - t →
        isOnTimeout cfg m now u a = (⟨false, 0⟩, mapDelete m (timeoutKey u a)) ∧
        mapGet (isOnTimeout cfg m now u a).2 (timeoutKey u a) = none) ∧
       (now - t < 1000 * actionDuration cfg a →
        (isOnTimeout cfg m now u a).1.onTimeout = true ∧
        (isOnTimeout cfg m now u a).1.remainingSeconds =
          (actionDuration cfg a : ℤ) - (((now - t) / 1000 : ℕ) : ℤ) ∧
        (isOnTimeout cfg m now u a).2 = m))) ∧
    (cfg.createTimeout = 300 → 0 < now →
      ((isOnTimeout cfg (setTimeout m now u "create") now u "create").1.onTimeout = true ∧
       299 ≤ (isOnTimeout cfg (setTimeout m now u "create") now u "create").1.remainingSeconds ∧
       (isOnTimeout cfg (setTimeout m now u "create") now u "create").1.remainingSeconds ≤ 300) ∧
      ((isOnTimeout cfg (setTimeout m now u "create") (now + 301000) u "create").1.onTimeout = false ∧
       mapGet (isOnTimeout cfg (setTimeout m now u "create") (now + 301000) u "create").2
         (timeoutKey u "create") = none)) := by
  refine ⟨?_, ?_, ?_⟩
  · intro h
    simp only [isOnTimeout, h]
  · intro hm ht hle
    have hmain := isOnTimeout_lookup_some cfg m now t u a hm ht hle
    constructor
    · intro hexp
      rw [hmain, if_pos hexp]
      exact ⟨rfl, mapGet_mapDelete_self m _⟩
    · intro hlt
      rw [hmain, if_neg (by omega)]
      exact ⟨rfl, rfl, rfl⟩
  · intro hcfg hnow
    have hm1 : mapGet (setTimeout m now u "create") (timeoutKey u "create") = some now :=
      mapGet_setTimeout_self m now u "create"
    have hdur : actionDuration cfg "create" = 300 := by
      simp [actionDuration, hcfg]
    constructor
    · have h := isOnTimeout_lookup_some cfg (setTimeout m now u "create") now now u "create"
        hm1 hnow le_rfl
      rw [if_neg (by rw [hdur]; omega)] at h
      rw [h]
      refine ⟨rfl, ?_, ?_⟩ <;> simp [hdur]
    · have h := isOnTimeout_lookup_some cfg (setTimeout m now u "create") (now + 301000) now u
        "create" hm1 hnow (by omega)
      rw [if_pos (by rw [hdur]; omega)] at h
      rw [h]
      exact ⟨rfl, mapGet_mapDelete_self _ _⟩

/-- Witness for C6 at concrete inputs: an entry armed at time 500 with the
default 300-second create cooldown is expired when checked at time 700000
and is evicted. -/
theorem claim6_witness :
    (isOnTimeout defaultTimeoutConfig [(timeoutKey "u" "create", 500)] 700000 "u" "create").1.onTimeout
      = false ∧
    mapGet (isOnTimeout defaultTimeoutConfig [(timeoutKey "u" "create", 500)] 700000 "u" "create").2
      (timeoutKey "u" "create") = none := by
  have h := (claim6_cooldown_check defaultTimeoutConfig [(timeoutKey "u" "create", 500)]
    700000 500 "u" "create").2.1
  have h2 := h (by decide) (by decide) (by decide)
  have h3 := h2.1 (by decide)
  exact ⟨by rw [h3.1], h3.2⟩

/-- C10: rate-limiter entries for distinct keys do not interfere.  For the
action kinds that occur in this program ("create" and "ping"), arming the
cooldown for one `(userId, actionKind)` pair does not change the result
`checkCooldown` reports for a different pair, because the concatenated-key
encoding `userId ++ "-" ++ actionKind` is injective on those pairs. -/
theorem claim10_rate_limiter_isolation (cfg : TimeoutConfig) (m : TimeoutMap)
    (now now2 : Nat) (u1 a1 u2 a2 : String)
    (h1 : a1 = "create" ∨ a1 = "ping") (h2 : a2 = "create" ∨ a2 = "ping")
    (hne : (u1, a1) ≠ (u2, a2)) :
    (isOnTimeout cfg (setTimeout m now u1 a1) now2 u2 a2).1 =
      (isOnTimeout cfg m now2 u2 a2).1 := by
  have hkey : timeoutKey u2 a2 ≠ timeoutKey u1 a1 := by
    intro hc
    obtain ⟨hu, ha⟩ := timeoutKey_inj h2 h1 hc
    exact hne (by rw [hu, ha])
  have hget : mapGet (setTimeout m now u1 a1) (timeoutKey u2 a2)
      = mapGet m (timeoutKey u2 a2) :=
    mapGet_mapSet_ne m now hkey
  cases hv : mapGet m (timeoutKey u2 a2) with
  | none => simp only [isOnTimeout, hget, hv]
  | some t =>
    simp only [isOnTimeout, hget, hv]
    by_cases h0 : t = 0
    · simp [h0]
    · rw [if_neg h0, if_neg h0]
      split_ifs <;> rfl

/-- Witness for C10 at concrete inputs: arming "create" for one user leaves
another user's "ping" check unchanged. -/
theorem claim10_witness :
    (isOnTimeout defaultTimeoutConfig (setTimeout [] 5 "alice" "create") 10 "bob" "ping").1 =
      (isOnTimeout defaultTimeoutConfig [] 10 "bob" "ping").1 :=
  claim10_rate_limiter_isolation defaultTimeoutConfig [] 5 10 "alice" "create" "bob" "ping"
    (Or.inl rfl) (Or.inr rfl) (by decide)

/-- The source's regex class equals the specification's `[A-Za-z0-9 _-]`
extended from the space character to all of JavaScript's `\s`. -/
theorem validNameChar_eq (c : Char) :
    validNameChar c = (specNameChar c || jsWhitespace c) := by
  rw [Bool.eq_iff_iff]
  simp only [validNameChar, specNameChar, jsWhitespace, Bool.or_eq_true, Bool.and_eq_true,
    decide_eq_true_eq]
  omega

/-- C3 counterexample: at the name "a, tab, b" the claimed characterization
fails — `validateGroupName` accepts the name although the tab character is
outside `[A-Za-z0-9 _-]` (the source's regex uses `\s`, which matches every
whitespace character, not just the space). -/
theorem claim3_counterexample :
    ¬ (((validateGroupName "a\tb").valid = true) ↔
      (2 ≤ ("a\tb" : String).length ∧ ("a\tb" : String).length ≤ 32 ∧
        ∀ c ∈ ("a\tb" : String).data, specNameChar c = true)) := by
  decide

/-- C3 amended: `validateGroupName` accepts a name if and only if its length
is between 2 and 32 and every character is a letter, digit, hyphen,
underscore, the space character, or any other JavaScript whitespace
character (tab, newline, non-breaking space, ...). -/
theorem claim3_validate_name (name : String) :
    (validateGroupName name).valid = true ↔
      (2 ≤ name.length ∧ name.length ≤ 32 ∧
        ∀ c ∈ name.data, (specNameChar c || jsWhitespace c) = true) := by
  have hlen : name.length = name.data.length := rfl
  unfold validateGroupName
  split_ifs with h1 h2
  · simp only [Bool.or_eq_true, decide_eq_true_eq] at h1
    refine iff_of_false (by simp) ?_
    rintro ⟨ha, hb, -⟩
    omega
  · rw [Bool.not_eq_true'] at h2
    unfold validNameRegexTest at h2
    refine iff_of_false (by simp) ?_
    rintro ⟨ha, -, hall⟩
    rcases Bool.and_eq_false_iff.mp h2 with hemp | hfail
    · rw [Bool.not_eq_false'] at hemp
      rw [List.isEmpty_iff] at hemp
      rw [hlen, hemp] at ha
      simp at ha
    · rw [List.all_eq_false] at hfail
      obtain ⟨c, hc, hcf⟩ := hfail
      rw [validNameChar_eq, hall c hc] at hcf
      exact hcf rfl
  · have hv : validNameRegexTest name = true := by
      cases hval : validNameRegexTest name
      · exact absurd (by rw [hval]; rfl) h2
      · rfl
    unfold validNameRegexTest at hv
    simp only [Bool.and_eq_true, List.all_eq_true] at hv
    simp only [Bool.or_eq_true, decide_eq_true_eq, not_or, Nat.not_lt] at h1
    refine iff_of_true rfl ⟨h1.1, by omega, fun c hc => ?_⟩
    rw [← validNameChar_eq]
    exact hv.2 c hc

/-- C2: evaluating the code at the failing input.  Two identical
`addMemberToGroup` calls both report success, but they leave two Membership
rows for the same `(groupId, userId)` pair: the schema declares no unique
constraint on `group_members`, so the `ON CONFLICT DO NOTHING` clause that
was meant to make the join idempotent never fires. -/
theorem claim2_duplicate_membership_rows :
    let s : Db := ⟨[⟨1, "ab", "G", "u1", 5⟩], [⟨1, "u1"⟩], 2⟩
    let r1 := addMemberToGroup s 1 "u2"
    let r2 := addMemberToGroup r1.2 1 "u2"
    r1.1 = true ∧ r2.1 = true ∧
    (r2.2.members.filter (fun mr => mr.groupId = 1 && mr.userId = "u2")).length = 2 := by
  decide

/-- Reduction of `createGroup` on an already-trimmed, valid name: it always
inserts, assigning the next primary key. -/
theorem createGroup_of_valid (s : Db) (now : Nat) (name guildId creatorId : String)
    (ht : jsTrim name = name) (hv : (validateGroupName name).valid = true) :
    createGroup s now name guildId creatorId =
      (some ⟨s.nextId, name, guildId, creatorId, now⟩,
        { groups := s.groups ++ [⟨s.nextId, name, guildId, creatorId, now⟩]
          members := s.members ++ [⟨s.nextId, creatorId⟩]
          nextId := s.nextId + 1 }) := by
  unfold createGroup
  rw [ht]
  simp [hv]

/-- C1 counterexample: at the db layer, a second `createGroup` with the same
name in the same server does not fail — it succeeds and inserts a second
group row, because neither `createGroup` nor the schema enforces the
`(name, serverId)` uniqueness. -/
theorem claim1_counterexample :
    let r1 := createGroup emptyDb 100 "Movie Night" "S1" "u1"
    let r2 := createGroup r1.2 200 "Movie Night" "S1" "u2"
    r2.1.isSome = true ∧
    (r2.2.groups.filter (fun g => g.name = "Movie Night" && g.guildId = "S1")).length = 2 := by
  decide

/-- C1 amended: the per-server name-uniqueness guard lives in the create
command handler, not in `createGroup`.  When a group with the exact name
already exists in the server, a second create command is rejected with the
Conflict reply (`alreadyExists`) and inserts nothing; a create command for
the same name in a server without it succeeds and inserts the group. -/
theorem claim1_unique_name_per_server (cfg : TimeoutConfig) (tm : TimeoutMap)
    (s : Db) (now : Nat) (serverId serverId2 userId name : String) (g : Group)
    (hcd : (isOnTimeout cfg tm now userId "create").1.onTimeout = false)
    (ht : jsTrim name = name) (hv : (validateGroupName name).valid = true) :
    (getGroupByName s name serverId = some g →
      handleCreate cfg tm s now serverId userId name =
        (.alreadyExists, (isOnTimeout cfg tm now userId "create").2, s)) ∧
    (getGroupByName s name serverId2 = none →
      handleCreate cfg tm s now serverId2 userId name =
        (.created, setTimeout (isOnTimeout cfg tm now userId "create").2 now userId "create",
          { groups := s.groups ++ [⟨s.nextId, name, serverId2, userId, now⟩]
            members := s.members ++ [⟨s.nextId, userId⟩]
            nextId := s.nextId + 1 }) ∧
      (⟨s.nextId, name, serverId2, userId, now⟩ : Group) ∈
        (handleCreate cfg tm s now serverId2 userId name).2.2.groups) := by
  constructor
  · intro hdup
    simp only [handleCreate, hcd, Bool.false_eq_true, if_false, hdup]
  · intro hfresh
    have hred : handleCreate cfg tm s now serverId2 userId name =
        (.created, setTimeout (isOnTimeout cfg tm now userId "create").2 now userId "create",
          { groups := s.groups ++ [⟨s.nextId, name, serverId2, userId, now⟩]
            members := s.members ++ [⟨s.nextId, userId⟩]
            nextId := s.nextId + 1 }) := by
      simp only [handleCreate, hcd, Bool.false_eq_true, if_false, hfresh,
        createGroup_of_valid s now name serverId2 userId ht hv]
    refine ⟨hred, ?_⟩
    rw [hred]
    exact List.mem_append_right _ (List.mem_singleton_self _)

/-- Witness for C1 at concrete inputs: with "Movie Night" already present in
server S1, a second create command for S1 replies `alreadyExists` and
leaves the database unchanged, while the same command for server S2
succeeds. -/
theorem claim1_witness :
    handleCreate defaultTimeoutConfig []
      (⟨[⟨1, "Movie Night", "S1", "u1", 100⟩], [⟨1, "u1"⟩], 2⟩ : Db)
      200 "S1" "u2" "Movie Night" =
        (.alreadyExists, (isOnTimeout defaultTimeoutConfig [] 200 "u2" "create").2,
          (⟨[⟨1, "Movie Night", "S1", "u1", 100⟩], [⟨1, "u1"⟩], 2⟩ : Db)) ∧
    (handleCreate defaultTimeoutConfig []
      (⟨[⟨1, "Movie Night", "S1", "u1", 100⟩], [⟨1, "u1"⟩], 2⟩ : Db)
      200 "S2" "u2" "Movie Night").1 = .created := by
  have h := claim1_unique_name_per_server defaultTimeoutConfig []
    (⟨[⟨1, "Movie Night", "S1", "u1", 100⟩], [⟨1, "u1"⟩], 2⟩ : Db)
    200 "S1" "S2" "u2" "Movie Night" ⟨1, "Movie Night", "S1", "u1", 100⟩
    (by decide) (by decide) (by decide)
  refine ⟨h.1 (by decide), ?_⟩
  rw [(h.2 (by decide)).1]

/-- A list splits into the part satisfying a Boolean predicate and the part
refuting it. -/
theorem length_filter_bnot {α : Type} (p : α → Bool) (l : List α) :
    (l.filter (fun a => !p a)).length + (l.filter p).length = l.length := by
  induction l with
  | nil => rfl
  | cons a t ih =>
    cases hp : p a <;> simp [List.filter_cons, hp] <;> omega

/-- C5 amended: on a group that exists (exactly one group row with the id),
`deleteGroup` removes exactly the group's `N` membership rows (memberships
first, to satisfy the foreign key) and then the one group row; calling
`deleteGroup` again on the already-deleted id is a safe no-op that reports
success (`true`), not `NotFound`. -/
theorem claim5_delete_group (s : Db) (gid : Nat)
    (hone : (s.groups.filter (fun g => g.id = gid)).length = 1) :
    (deleteGroup s gid).1 = true ∧
    (deleteGroup s gid).2.members.length
      = s.members.length - (s.members.filter (fun mr => mr.groupId = gid)).length ∧
    (deleteGroup s gid).2.members.filter (fun mr => mr.groupId = gid) = [] ∧
    (deleteGroup s gid).2.groups.length = s.groups.length - 1 ∧
    (deleteGroup s gid).2.groups.filter (fun g => g.id = gid) = [] ∧
    (deleteGroup (deleteGroup s gid).2 gid).1 = true ∧
    (deleteGroup (deleteGroup s gid).2 gid).2 = (deleteGroup s gid).2 := by
  have hmem : ∀ (l : List MemberRow),
      (l.filter (fun mr => ¬ mr.groupId = gid)).length
        = l.length - (l.filter (fun mr => mr.groupId = gid)).length := by
    intro l
    have h := length_filter_bnot (fun mr => decide (mr.groupId = gid)) l
    simp only [← decide_not] at h
    omega
  have hgrp : ∀ (l : List Group),
      (l.filter (fun g => ¬ g.id = gid)).length
        = l.length - (l.filter (fun g => g.id = gid)).length := by
    intro l
    have h := length_filter_bnot (fun g => decide (g.id = gid)) l
    simp only [← decide_not] at h
    omega
  refine ⟨rfl, ?_, ?_, ?_, ?_, rfl, ?_⟩
  · exact hmem s.members
  · simp only [deleteGroup, List.filter_filter]
    apply List.filter_eq_nil_iff.mpr
    intro mr _
    simp
  · rw [show (deleteGroup s gid).2.groups = s.groups.filter (fun g => ¬ g.id = gid) from rfl,
      hgrp s.groups, hone]
  · simp only [deleteGroup, List.filter_filter]
    apply List.filter_eq_nil_iff.mpr
    intro g _
    simp
  · simp only [deleteGroup, List.filter_filter]
    congr 1 <;> {
      apply List.filter_congr
      intro x _
      simp
    }

/-- C5 counterexample: `deleteGroup` called on an id whose group was
already deleted returns `true` — the same success flag as a real deletion —
rather than a `NotFound` result. -/
theorem claim5_counterexample :
    deleteGroup (deleteGroup (⟨[⟨1, "ab", "G", "u1", 5⟩], [⟨1, "u1"⟩], 2⟩ : Db) 1).2 1
      = (true, (⟨[], [], 2⟩ : Db)) := by
  decide

/-- Witness for C5 at a concrete database with one group and two members. -/
theorem claim5_witness :
    let s : Db := ⟨[⟨1, "ab", "G", "u1", 5⟩], [⟨1, "u1"⟩, ⟨1, "u2"⟩, ⟨2, "u3"⟩], 3⟩
    ((s.groups.filter (fun g => g.id = 1)).length = 1) ∧
    ((deleteGroup s 1).1 = true ∧
     (deleteGroup s 1).2.members.length
       = s.members.length - (s.members.filter (fun mr => mr.groupId = 1)).length ∧
     (deleteGroup s 1).2.members.filter (fun mr => mr.groupId = 1) = [] ∧
     (deleteGroup s 1).2.groups.length = s.groups.length - 1 ∧
     (deleteGroup s 1).2.groups.filter (fun g => g.id = 1) = [] ∧
     (deleteGroup (deleteGroup s 1).2 1).1 = true ∧
     (deleteGroup (deleteGroup s 1).2 1).2 = (deleteGroup s 1).2) :=
  ⟨by decide, claim5_delete_group _ 1 (by decide)⟩

/-- Finding in a concatenation when the first part has no match. -/
theorem find?_append_of_none {α : Type} {p : α → Bool} {l1 : List α} (l2 : List α)
    (h : l1.find? p = none) : (l1 ++ l2).find? p = l2.find? p := by
  induction l1 with
  | nil => rfl
  | cons a t ih =>
    cases hp : p a with
    | true =>
      rw [List.find?_cons_of_pos _ hp] at h
      cases h
    | false =>
      rw [List.find?_cons_of_neg _ (by simp [hp])] at h
      rw [List.cons_append, List.find?_cons_of_neg _ (by simp [hp])]
      exact ih h

/-- C4: for valid inputs (already-trimmed name passing validation, name not
yet present in the server, membership table well formed with respect to the
id counter), a successful `createGroup` followed by `getGroupByName` with
the same `(name, serverId)` returns the created group, whose fields equal
the inputs, and `getGroupMembers` on its id returns exactly `[creatorId]`. -/
theorem claim4_create_roundtrip (s : Db) (now : Nat)
    (name serverId creatorId : String)
    (ht : jsTrim name = name) (hv : (validateGroupName name).valid = true)
    (hfresh : getGroupByName s name serverId = none)
    (hwf : ∀ mr ∈ s.members, mr.groupId < s.nextId) :
    ∃ g s1, createGroup s now name serverId creatorId = (some g, s1) ∧
      g.name = name ∧ g.guildId = serverId ∧ g.creatorId = creatorId ∧
      getGroupByName s1 name serverId = some g ∧
      getGroupMembers s1 g.id = [creatorId] := by
  have hred := createGroup_of_valid s now name serverId creatorId ht hv
  refine ⟨_, _, hred, rfl, rfl, rfl, ?_, ?_⟩
  · unfold getGroupByName at hfresh ⊢
    rw [find?_append_of_none _ hfresh]
    rw [List.find?_cons_of_pos _ (by simp)]
  · unfold getGroupMembers
    rw [List.filter_append, List.filter_eq_nil_iff.mpr, List.nil_append]
    · simp
    · intro mr hmr
      have hlt := hwf mr hmr
      simp only [decide_eq_true_eq]
      omega

/-- Witness for C4 at concrete inputs, on a database already holding an
unrelated group. -/
theorem claim4_witness :
    let s : Db := ⟨[⟨1, "other", "S1", "u9", 50⟩], [⟨1, "u9"⟩], 2⟩
    jsTrim "raid-team" = "raid-team" ∧
    (validateGroupName "raid-team").valid = true ∧
    getGroupByName s "raid-team" "S1" = none ∧
    (∃ g s1, createGroup s 100 "raid-team" "S1" "alice" = (some g, s1) ∧
      g.name = "raid-team" ∧ g.guildId = "S1" ∧ g.creatorId = "alice" ∧
      getGroupByName s1 "raid-team" "S1" = some g ∧
      getGroupMembers s1 g.id = ["alice"]) :=
  ⟨by decide, by decide, by decide,
    claim4_create_roundtrip _ 100 "raid-team" "S1" "alice" (by decide) (by decide)
      (by decide) (by decide)⟩

/-- Membership listed by `getGroupMembers` implies `isMemberInGroup`. -/
theorem isMemberInGroup_of_mem {s : Db} {gid : Nat} {userId : String}
    (h : userId ∈ getGroupMembers s gid) : isMemberInGroup s gid userId = true := by
  unfold getGroupMembers at h
  unfold isMemberInGroup
  rw [List.any_eq_true]
  obtain ⟨mr, hmr, hu⟩ := List.mem_map.mp h
  refine ⟨mr, List.mem_of_mem_filter hmr, ?_⟩
  have hgid := List.of_mem_filter hmr
  simp only [decide_eq_true_eq] at hgid
  simp [hgid, hu]

/-- After `deleteGroup`, the group has no membership rows. -/
theorem getGroupMembers_deleteGroup (s : Db) (gid : Nat) :
    getGroupMembers (deleteGroup s gid).2 gid = [] := by
  unfold getGroupMembers deleteGroup
  simp only [List.filter_filter]
  rw [List.filter_eq_nil_iff.mpr, List.map_nil]
  intro mr _
  simp

/-- After `deleteGroup`, no group row with the id remains. -/
theorem groups_deleteGroup (s : Db) (gid : Nat) :
    ∀ g2 ∈ (deleteGroup s gid).2.groups, ¬ g2.id = gid := by
  intro g2 h
  have hmem := List.of_mem_filter h
  simpa using hmem

/-- Removing one user's membership rows commutes with listing a group's
member names. -/
theorem members_after_remove (l : List MemberRow) (gid : Nat) (u : String) :
    ((l.filter (fun mr => ¬ (mr.groupId = gid ∧ mr.userId = u))).filter
        (fun mr => mr.groupId = gid)).map (fun mr => mr.userId)
      = ((l.filter (fun mr => mr.groupId = gid)).map (fun mr => mr.userId)).filter
        (fun x => ¬ x = u) := by
  induction l with
  | nil => rfl
  | cons a t ih =>
    by_cases hA : a.groupId = gid
    · by_cases hB : a.userId = u
      · simpa [List.filter_cons, hA, hB] using ih
      · simpa [List.filter_cons, hA, hB] using ih
    · simpa [List.filter_cons, hA] using ih

/-- A duplicate-free list whose elements are all equal has length at most
one. -/
theorem length_le_one_of_nodup_alleq {α : Type} {l : List α} (hn : l.Nodup)
    {x : α} (h : ∀ a ∈ l, a = x) : l.length ≤ 1 := by
  match l with
  | [] => simp
  | [a] => simp
  | a :: b :: t =>
    exfalso
    have ha := h a (by simp)
    have hb := h b (by simp)
    rw [List.nodup_cons] at hn
    exact hn.1 (by rw [ha, hb]; simp)

/-- C7: zero-member groups never persist through the leave command.  When
the leave removes the sole remaining member, `handleLeave` invokes
`deleteGroup` and the group no longer exists once the command completes;
when the leaving user was not the last member, the group survives with the
remaining members. -/
theorem claim7_leave_auto_delete (s : Db) (guildId userId name : String) (g : Group)
    (hg : getGroupByName s name guildId = some g)
    (hmem : userId ∈ getGroupMembers s g.id) :
    ((getGroupMembers s g.id).length = 1 →
      ∃ s2, handleLeave s guildId userId name = (.leftAndDeleted, s2) ∧
        (∀ g2 ∈ s2.groups, ¬ g2.id = g.id) ∧
        getGroupMembers s2 g.id = []) ∧
    ((getGroupMembers s g.id).length ≠ 1 →
      ∃ s1, handleLeave s guildId userId name = (.left, s1) ∧
        g ∈ s1.groups ∧
        getGroupMembers s1 g.id
          = (getGroupMembers s g.id).filter (fun x => ¬ x = userId) ∧
        ((getGroupMembers s g.id).Nodup → getGroupMembers s1 g.id ≠ [])) := by
  have hism := isMemberInGroup_of_mem hmem
  constructor
  · intro hlen
    have hred : handleLeave s guildId userId name =
        (.leftAndDeleted, (deleteGroup (removeMemberFromGroup s g.id userId).2 g.id).2) := by
      simp [handleLeave, hg, hism, hlen, removeMemberFromGroup, deleteGroup]
    exact ⟨_, hred, groups_deleteGroup _ _, getGroupMembers_deleteGroup _ _⟩
  · intro hlen
    have hred : handleLeave s guildId userId name =
        (.left, (removeMemberFromGroup s g.id userId).2) := by
      simp [handleLeave, hg, hism, hlen, removeMemberFromGroup]
    have hmembers : getGroupMembers (removeMemberFromGroup s g.id userId).2 g.id
        = (getGroupMembers s g.id).filter (fun x => ¬ x = userId) := by
      unfold getGroupMembers removeMemberFromGroup
      exact members_after_remove s.members g.id userId
    refine ⟨_, hred, List.mem_of_find?_eq_some hg, hmembers, ?_⟩
    intro hnodup hnil
    rw [hmembers] at hnil
    have hall : ∀ x ∈ getGroupMembers s g.id, x = userId := by
      intro x hx
      by_contra hne
      have : x ∈ (getGroupMembers s g.id).filter (fun x => ¬ x = userId) :=
        List.mem_filter.mpr ⟨hx, by simpa using hne⟩
      rw [hnil] at this
      cases this
    have hle := length_le_one_of_nodup_alleq hnodup hall
    have hpos : 1 ≤ (getGroupMembers s g.id).length := by
      cases hl : getGroupMembers s g.id with
      | nil => rw [hl] at hmem; cases hmem
      | cons a t => simp
    omega

/-- Witness for C7 at concrete inputs, following the spec's scenario: in a
group with members A and B, A's leave keeps the group alive with B; in a
group whose only member is B, B's leave deletes the group. -/
theorem claim7_witness :
    (∃ s2, handleLeave (⟨[⟨1, "raid-team", "G", "A", 5⟩], [⟨1, "B"⟩], 2⟩ : Db)
        "G" "B" "raid-team" = (.leftAndDeleted, s2) ∧
      (∀ g2 ∈ s2.groups, ¬ g2.id = 1) ∧
      getGroupMembers s2 1 = []) ∧
    (∃ s1, handleLeave (⟨[⟨1, "raid-team", "G", "A", 5⟩], [⟨1, "A"⟩, ⟨1, "B"⟩], 2⟩ : Db)
        "G" "A" "raid-team" = (.left, s1) ∧
      (⟨1, "raid-team", "G", "A", 5⟩ : Group) ∈ s1.groups ∧
      getGroupMembers s1 1
        = (getGroupMembers (⟨[⟨1, "raid-team", "G", "A", 5⟩],
            [⟨1, "A"⟩, ⟨1, "B"⟩], 2⟩ : Db) 1).filter (fun x => ¬ x = "A") ∧
      ((getGroupMembers (⟨[⟨1, "raid-team", "G", "A", 5⟩],
          [⟨1, "A"⟩, ⟨1, "B"⟩], 2⟩ : Db) 1).Nodup →
        getGroupMembers s1 1 ≠ [])) := by
  constructor
  · exact (claim7_leave_auto_delete _ "G" "B" "raid-team"
      ⟨1, "raid-team", "G", "A", 5⟩ (by decide) (by decide)).1 (by decide)
  · exact (claim7_leave_auto_delete _ "G" "A" "raid-team"
      ⟨1, "raid-team", "G", "A", 5⟩ (by decide) (by decide)).2 (by decide)

/-- C8 counterexample: a listing that hits the storage-failure catch branch
returns the same empty list as a successful listing of a server that
genuinely has no groups — the failure is not distinguishable from a valid
empty result, even for a server that does contain a group. -/
theorem claim8_counterexample :
    getGuildGroupsTry true (⟨[⟨1, "ab", "G", "u1", 5⟩], [⟨1, "u1"⟩], 2⟩ : Db) "G" = [] ∧
    getGuildGroupsTry false emptyDb "G" = [] ∧
    getGuildGroupsTry true (⟨[⟨1, "ab", "G", "u1", 5⟩], [⟨1, "u1"⟩], 2⟩ : Db) "G"
      = getGuildGroupsTry false emptyDb "G" := by
  decide

/-- C8 amended: expected conditions (not-found, cooldown-active, duplicate
name) are returned as explicit result values, never thrown; but a storage
failure does not surface as a value distinct from a valid empty result —
the catch branches return the same fallback values (empty list, so a failed
listing equals the listing of a server with no groups). -/
theorem claim8_error_reporting (cfg : TimeoutConfig) (tm : TimeoutMap) (s : Db)
    (now : Nat) (serverId userId name : String) (gid : Nat) (g : Group) :
    (getGroupByName s name serverId = none →
      handleJoin s serverId userId name = (.groupNotFound, s)) ∧
    ((isOnTimeout cfg tm now userId "create").1.onTimeout = true →
      handleCreate cfg tm s now serverId userId name =
        (.onCooldown (isOnTimeout cfg tm now userId "create").1.remainingSeconds,
         (isOnTimeout cfg tm now userId "create").2, s)) ∧
    ((isOnTimeout cfg tm now userId "create").1.onTimeout = false →
      getGroupByName s name serverId = some g →
      (handleCreate cfg tm s now serverId userId name).1 = .alreadyExists) ∧
    (getGuildGroupsTry true s serverId = getGuildGroupsTry false emptyDb serverId) ∧
    (getGroupMembersTry true s gid = getGroupMembersTry false emptyDb gid) := by
  refine ⟨?_, ?_, ?_, rfl, rfl⟩
  · intro h
    simp only [handleJoin, h]
  · intro h
    simp [handleCreate, h]
  · intro h hdup
    simp [handleCreate, h, hdup]

/-- Witness for C8 at concrete inputs: a join for a missing name replies
not-found; a create under an armed cooldown replies on-cooldown; a create
for a taken name replies the Conflict value; and the failed listings equal
the genuinely-empty ones. -/
theorem claim8_witness :
    handleJoin (⟨[⟨1, "ab", "G", "u1", 5⟩], [⟨1, "u1"⟩], 2⟩ : Db) "G" "u2" "zz"
      = (.groupNotFound, (⟨[⟨1, "ab", "G", "u1", 5⟩], [⟨1, "u1"⟩], 2⟩ : Db)) ∧
    (handleCreate defaultTimeoutConfig (setTimeout [] 8 "u2" "create")
        (⟨[⟨1, "ab", "G", "u1", 5⟩], [⟨1, "u1"⟩], 2⟩ : Db) 10 "G" "u2" "zz").1
      = .onCooldown (isOnTimeout defaultTimeoutConfig (setTimeout [] 8 "u2" "create")
          10 "u2" "create").1.remainingSeconds ∧
    (handleCreate defaultTimeoutConfig []
        (⟨[⟨1, "ab", "G", "u1", 5⟩], [⟨1, "u1"⟩], 2⟩ : Db) 10 "G" "u2" "ab").1
      = .alreadyExists ∧
    getGuildGroupsTry true (⟨[⟨1, "ab", "G", "u1", 5⟩], [⟨1, "u1"⟩], 2⟩ : Db) "G"
      = getGuildGroupsTry false emptyDb "G" ∧
    getGroupMembersTry true (⟨[⟨1, "ab", "G", "u1", 5⟩], [⟨1, "u1"⟩], 2⟩ : Db) 1
      = getGroupMembersTry false emptyDb 1 := by
  have honts : (isOnTimeout defaultTimeoutConfig (setTimeout [] 8 "u2" "create")
      10 "u2" "create").1.onTimeout = true := by
    have h := isOnTimeout_lookup_some defaultTimeoutConfig (setTimeout [] 8 "u2" "create")
      10 8 "u2" "create" (by decide) (by decide) (by decide)
    rw [if_neg (by decide)] at h
    rw [h]
  have hA := claim8_error_reporting defaultTimeoutConfig []
    (⟨[⟨1, "ab", "G", "u1", 5⟩], [⟨1, "u1"⟩], 2⟩ : Db) 10 "G" "u2" "zz" 1
    ⟨1, "ab", "G", "u1", 5⟩
  have hB := claim8_error_reporting defaultTimeoutConfig (setTimeout [] 8 "u2" "create")
    (⟨[⟨1, "ab", "G", "u1", 5⟩], [⟨1, "u1"⟩], 2⟩ : Db) 10 "G" "u2" "zz" 1
    ⟨1, "ab", "G", "u1", 5⟩
  have hC := claim8_error_reporting defaultTimeoutConfig []
    (⟨[⟨1, "ab", "G", "u1", 5⟩], [⟨1, "u1"⟩], 2⟩ : Db) 10 "G" "u2" "ab" 1
    ⟨1, "ab", "G", "u1", 5⟩
  refine ⟨hA.1 (by decide), ?_, ?_, hA.2.2.2.1, hA.2.2.2.2⟩
  · rw [hB.2.1 honts]
  · exact hC.2.2.1 (by decide) (by decide)

/-- Filtering a duplicate-free list with a predicate satisfied by exactly
one value yields at most that one value. -/
theorem filter_eq_of_unique {α : Type} [DecidableEq α] {l : List α} (hl : l.Nodup)
    {p : α → Bool} {x : α} (hp : ∀ a, p a = true ↔ a = x) :
    l.filter p = if x ∈ l then [x] else [] := by
  induction l with
  | nil => simp
  | cons a t ih =>
    rw [List.nodup_cons] at hl
    rw [List.filter_cons]
    by_cases hax : a = x
    · subst hax
      rw [if_pos ((hp a).mpr rfl), if_pos (List.mem_cons_self a t)]
      have ht : t.filter p = [] := by
        apply List.filter_eq_nil_iff.mpr
        intro b hb hpb
        rw [(hp b).mp hpb] at hb
        exact hl.1 hb
      rw [ht]
    · rw [if_neg (fun hpa => hax ((hp a).mp hpa))]
      rw [ih hl.2]
      by_cases hxt : x ∈ t
      · rw [if_pos hxt, if_pos (List.mem_cons_of_mem a hxt)]
      · have hnot : x ∉ a :: t := by
          intro hmemx
          rcases List.mem_cons.mp hmemx with h | h
          · exact hax h.symm
          · exact hxt h
        rw [if_neg hxt, if_neg hnot]

/-- The inner list the user-listing join produces for one group row: a
single copy of the group when the server matches and the membership row is
present. -/
theorem inner_eq (members : List MemberRow) (hm : members.Nodup)
    (g : Group) (guildId userId : String) :
    (members.filter (fun mr =>
        mr.groupId = g.id && g.guildId = guildId && mr.userId = userId)).map
      (fun _ => g)
      = if g.guildId = guildId ∧ (⟨g.id, userId⟩ : MemberRow) ∈ members
        then [g] else [] := by
  by_cases hgl : g.guildId = guildId
  · have hp : ∀ mr : MemberRow, (mr.groupId = g.id && g.guildId = guildId &&
        mr.userId = userId) = true ↔ mr = (⟨g.id, userId⟩ : MemberRow) := by
      intro mr
      cases mr with
      | mk mgid muid =>
        simp [hgl]
    rw [filter_eq_of_unique hm hp]
    by_cases hmemr : (⟨g.id, userId⟩ : MemberRow) ∈ members
    · rw [if_pos hmemr, if_pos ⟨hgl, hmemr⟩]
      rfl
    · rw [if_neg hmemr, if_neg (fun hc => hmemr hc.2)]
      rfl
  · have hfil : members.filter (fun mr =>
        mr.groupId = g.id && g.guildId = guildId && mr.userId = userId) = [] := by
      apply List.filter_eq_nil_iff.mpr
      intro mr _ hpr
      simp only [Bool.and_eq_true, decide_eq_true_eq] at hpr
      exact hgl hpr.1.2
    rw [hfil, if_neg (fun hc => hgl hc.1)]
    rfl

/-- Under a duplicate-free membership table, the user-listing join equals
the filter of the groups table by "server matches and the user holds a
membership" — each group appears at most once. -/
theorem joined_eq (groups : List Group) (members : List MemberRow)
    (hm : members.Nodup) (guildId userId : String) :
    groups.flatMap (fun g => (members.filter (fun mr =>
        mr.groupId = g.id && g.guildId = guildId && mr.userId = userId)).map
        (fun _ => g))
      = groups.filter (fun g => decide (g.guildId = guildId) &&
          decide ((⟨g.id, userId⟩ : MemberRow) ∈ members)) := by
  induction groups with
  | nil => rfl
  | cons g gs ih =>
    rw [List.flatMap_cons, inner_eq members hm g guildId userId, List.filter_cons, ih]
    by_cases hc : g.guildId = guildId ∧ (⟨g.id, userId⟩ : MemberRow) ∈ members
    · rw [if_pos hc, if_pos (by simp [hc.1, hc.2])]
      rfl
    · rw [if_neg hc, if_neg (by simpa using hc)]
      rfl

/-- C9: `getGuildGroups` returns exactly the groups whose server matches,
without duplicates, ordered by ascending `lastUsed` (least recently used
first); `getUserGuildGroups` returns exactly the subset of those groups in
which the given user holds a membership, in the same ascending-`lastUsed`
order.  (Well-formedness assumptions: group ids are unique and the
membership table has no duplicate rows, as in every handler-reachable
state.) -/
theorem claim9_listings (s : Db) (serverId userId : String)
    (hids : (s.groups.map (fun g => g.id)).Nodup) (hm : s.members.Nodup) :
    (∀ g, g ∈ getGuildGroups s serverId ↔ (g ∈ s.groups ∧ g.guildId = serverId)) ∧
    List.Sorted lastUsedLE (getGuildGroups s serverId) ∧
    (getGuildGroups s serverId).Nodup ∧
    (∀ g, g ∈ getUserGuildGroups s serverId userId ↔
      (g ∈ getGuildGroups s serverId ∧
        ∃ mr ∈ s.members, mr.groupId = g.id ∧ mr.userId = userId)) ∧
    List.Sorted lastUsedLE (getUserGuildGroups s serverId userId) ∧
    (getUserGuildGroups s serverId userId).Nodup := by
  have hgroups : s.groups.Nodup := List.Nodup.of_map _ hids
  have hjoin := joined_eq s.groups s.members hm serverId userId
  refine ⟨?_, ?_, ?_, ?_, ?_, ?_⟩
  · intro g
    unfold getGuildGroups
    rw [(List.perm_insertionSort _ _).mem_iff, List.mem_filter]
    simp
  · exact List.sorted_insertionSort _ _
  · unfold getGuildGroups
    rw [(List.perm_insertionSort _ _).nodup_iff]
    exact hgroups.filter _
  · intro g
    simp only [getUserGuildGroups]
    rw [(List.perm_insertionSort _ _).mem_iff, hjoin, List.mem_filter]
    unfold getGuildGroups
    rw [(List.perm_insertionSort _ _).mem_iff, List.mem_filter]
    simp only [Bool.and_eq_true, decide_eq_true_eq]
    constructor
    · rintro ⟨hmemg, hgl, hrow⟩
      exact ⟨⟨hmemg, hgl⟩, ⟨g.id, userId⟩, hrow, rfl, rfl⟩
    · rintro ⟨⟨hmemg, hgl⟩, mr, hmr, h1, h2⟩
      refine ⟨hmemg, hgl, ?_⟩
      have hr : mr = (⟨g.id, userId⟩ : MemberRow) := by
        cases mr
        simp_all
      rw [← hr]
      exact hmr
  · simp only [getUserGuildGroups]
    exact List.sorted_insertionSort _ _
  · simp only [getUserGuildGroups]
    rw [(List.perm_insertionSort _ _).nodup_iff, hjoin]
    exact hgroups.filter _

/-- Witness for C9 at a concrete database: server G holds groups "ab" and
"cd", user u2 is a member of "cd" only, and group "ef" lives in another
server. -/
theorem claim9_witness :
    let s : Db := ⟨[⟨1, "ab", "G", "u1", 50⟩, ⟨2, "cd", "G", "u2", 10⟩, ⟨3, "ef", "H", "u1", 5⟩],
      [⟨1, "u1"⟩, ⟨2, "u1"⟩, ⟨2, "u2"⟩, ⟨3, "u1"⟩], 4⟩
    ((s.groups.map (fun g => g.id)).Nodup) ∧ s.members.Nodup ∧
    ((∀ g, g ∈ getGuildGroups s "G" ↔ (g ∈ s.groups ∧ g.guildId = "G")) ∧
     List.Sorted lastUsedLE (getGuildGroups s "G") ∧
     (getGuildGroups s "G").Nodup ∧
     (∀ g, g ∈ getUserGuildGroups s "G" "u2" ↔
       (g ∈ getGuildGroups s "G" ∧
         ∃ mr ∈ s.members, mr.groupId = g.id ∧ mr.userId = "u2")) ∧
     List.Sorted lastUsedLE (getUserGuildGroups s "G" "u2") ∧
     (getUserGuildGroups s "G" "u2").Nodup) :=
  ⟨by decide, by decide, claim9_listings _ "G" "u2" (by decide) (by decide)⟩

end GachaPing
